import Mathlib

/-!
Verification of the biometry aggregation-and-normalization pipeline
(`src/biometric.py`) against its natural-language specification.

The SQLite tables are embedded shallowly: a table is a Lean list of rows,
REAL values are rationals (exact field arithmetic, standing in for the
store's float64), and each pipeline stage is a Lean function translated
from the corresponding Python function, keeping the source's names.
-/

namespace Biometric

/-! ## SQL aggregate primitives

SQLite's MIN/MAX/AVG over a (necessarily non-empty) GROUP BY group.
The `[]` cases are junk values: under `GROUP BY` an aggregate is only ever
evaluated on a non-empty group, and the lemmas below carry a non-emptiness
hypothesis wherever it matters. -/

/-- SQL `MIN(d)` over the multiset of values of a group. -/
def aggMIN : List ℚ → ℚ
  | [] => 0
  | x :: xs => xs.foldl min x

/-- SQL `MAX(d)` over the multiset of values of a group. -/
def aggMAX : List ℚ → ℚ
  | [] => 0
  | x :: xs => xs.foldl max x

/-- SQL `AVG(d)` over the multiset of values of a group: sum divided by count. -/
def aggAVG (xs : List ℚ) : ℚ := xs.sum / xs.length

lemma foldl_min_le_init (xs : List ℚ) (a : ℚ) : xs.foldl min a ≤ a := by
  induction xs generalizing a with
  | nil => exact le_refl a
  | cons x xs ih =>
    calc (x :: xs).foldl min a = xs.foldl min (min a x) := rfl
    _ ≤ min a x := ih _
    _ ≤ a := min_le_left _ _

lemma foldl_min_le_mem (xs : List ℚ) (a x : ℚ) (hx : x ∈ xs) :
    xs.foldl min a ≤ x := by
  induction xs generalizing a with
  | nil => cases hx
  | cons y ys ih =>
    rcases List.mem_cons.mp hx with h | h
    · subst h
      calc (x :: ys).foldl min a = ys.foldl min (min a x) := rfl
      _ ≤ min a x := foldl_min_le_init _ _
      _ ≤ x := min_le_right _ _
    · exact ih (min a y) h

lemma foldl_min_mem (xs : List ℚ) (a : ℚ) :
    xs.foldl min a = a ∨ xs.foldl min a ∈ xs := by
  induction xs generalizing a with
  | nil => exact Or.inl rfl
  | cons y ys ih =>
    have hstep : (y :: ys).foldl min a = ys.foldl min (min a y) := rfl
    rcases ih (min a y) with h | h
    · rcases min_choice a y with hm | hm
      · exact Or.inl (by rw [hstep, h, hm])
      · refine Or.inr ?_
        rw [hstep, h, hm]
        exact List.mem_cons_self _ _
    · exact Or.inr (List.mem_cons_of_mem _ (hstep ▸ h))

lemma aggMIN_le {xs : List ℚ} (x : ℚ) (hx : x ∈ xs) : aggMIN xs ≤ x := by
  cases xs with
  | nil => cases hx
  | cons y ys =>
    rcases List.mem_cons.mp hx with h | h
    · subst h; exact foldl_min_le_init ys x
    · exact foldl_min_le_mem ys y x h

lemma aggMIN_mem {xs : List ℚ} (h : xs ≠ []) : aggMIN xs ∈ xs := by
  cases xs with
  | nil => exact absurd rfl h
  | cons y ys =>
    rcases foldl_min_mem ys y with h1 | h1
    · rw [aggMIN, h1]; exact List.mem_cons_self _ _
    · exact List.mem_cons_of_mem _ h1

lemma init_le_foldl_max (xs : List ℚ) (a : ℚ) : a ≤ xs.foldl max a := by
  induction xs generalizing a with
  | nil => exact le_refl a
  | cons x xs ih =>
    calc a ≤ max a x := le_max_left _ _
    _ ≤ xs.foldl max (max a x) := ih _
    _ = (x :: xs).foldl max a := rfl

lemma mem_le_foldl_max (xs : List ℚ) (a x : ℚ) (hx : x ∈ xs) :
    x ≤ xs.foldl max a := by
  induction xs generalizing a with
  | nil => cases hx
  | cons y ys ih =>
    rcases List.mem_cons.mp hx with h | h
    · subst h
      calc x ≤ max a x := le_max_right _ _
      _ ≤ ys.foldl max (max a x) := init_le_foldl_max _ _
      _ = (x :: ys).foldl max a := rfl
    · exact ih (max a y) h

lemma foldl_max_mem (xs : List ℚ) (a : ℚ) :
    xs.foldl max a = a ∨ xs.foldl max a ∈ xs := by
  induction xs generalizing a with
  | nil => exact Or.inl rfl
  | cons y ys ih =>
    have hstep : (y :: ys).foldl max a = ys.foldl max (max a y) := rfl
    rcases ih (max a y) with h | h
    · rcases max_choice a y with hm | hm
      · exact Or.inl (by rw [hstep, h, hm])
      · refine Or.inr ?_
        rw [hstep, h, hm]
        exact List.mem_cons_self _ _
    · exact Or.inr (List.mem_cons_of_mem _ (hstep ▸ h))

lemma le_aggMAX {xs : List ℚ} (x : ℚ) (hx : x ∈ xs) : x ≤ aggMAX xs := by
  cases xs with
  | nil => cases hx
  | cons y ys =>
    rcases List.mem_cons.mp hx with h | h
    · subst h; exact init_le_foldl_max ys x
    · exact mem_le_foldl_max ys y x h

lemma aggMAX_mem {xs : List ℚ} (h : xs ≠ []) : aggMAX xs ∈ xs := by
  cases xs with
  | nil => exact absurd rfl h
  | cons y ys =>
    rcases foldl_max_mem ys y with h1 | h1
    · rw [aggMAX, h1]; exact List.mem_cons_self _ _
    · exact List.mem_cons_of_mem _ h1

/-! ## Data model -/

/-- One row of a raw sample table (`train` or `test`): axes `X,Y,Z` and the
integer group key (`Device` for `train`, `SequenceId` for `test`).  The
timestamp column `T` is never read by the pipeline and is omitted. -/
structure Sample where
  X : ℚ
  Y : ℚ
  Z : ℚ
  key : ℤ
deriving DecidableEq

/-- The per-sample magnitude `t.X*t.X+t.Y*t.Y+t.Z*t.Z AS d` from the inner
SELECT of `create_summary_table`. -/
def d (s : Sample) : ℚ := s.X * s.X + s.Y * s.Y + s.Z * s.Z

/-- One row of a summary table: the five statistics plus the group key, in
the column order of `summary_columns`. -/
structure SummaryRow where
  range : ℚ
  min : ℚ
  max : ℚ
  avg : ℚ
  variance : ℚ
  key : ℤ
deriving DecidableEq

/-- `summary_columns` from the source: `(name, type, SQL expression)` triples,
the SQL aggregate expression embedded as a function of the group's
multiset of `d` values. -/
def summary_columns : List (String × String × (List ℚ → ℚ)) :=
  [("range", "REAL", fun ds => aggMAX ds - aggMIN ds),
   ("min", "REAL", aggMIN),
   ("max", "REAL", aggMAX),
   ("avg", "REAL", aggAVG),
   ("variance", "REAL", fun ds => aggAVG (ds.map fun x => x * x) - aggAVG ds * aggAVG ds)]

/-- Projection of a summary row by column name, as the normalisation SELECT
does when it fetches the columns named in `keys` from `train_summary`. -/
def getStat (r : SummaryRow) : String → ℚ
  | "range" => r.range
  | "min" => r.min
  | "max" => r.max
  | "avg" => r.avg
  | "variance" => r.variance
  | _ => 0

/-! ## Summary Aggregator (`create_summary_table`) -/

/-- The multiset of magnitudes `d` of the group of `source` rows whose key
equals `k` (the rows the GROUP BY groups together under `k`). -/
def groupMagnitudes (source : List Sample) (k : ℤ) : List ℚ :=
  (source.filter fun s => s.key == k).map d

/-- The destination row `create_summary_table` produces for group key `k`:
each field is the corresponding SQL expression of `summary_columns`
evaluated on the group's `d` values, and the key column is copied. -/
def mkSummary (source : List Sample) (k : ℤ) : SummaryRow :=
  let ds := groupMagnitudes source k
  { range := aggMAX ds - aggMIN ds
    min := aggMIN ds
    max := aggMAX ds
    avg := aggAVG ds
    variance := aggAVG (ds.map fun x => x * x) - aggAVG ds * aggAVG ds
    key := k }

/-- `create_summary_table` from the source:
`INSERT INTO dest(range,min,max,avg,variance,key)
 SELECT MAX(d)-MIN(d),MIN(d),MAX(d),AVG(d),AVG(d*d)-AVG(d)*AVG(d), key FROM
 (SELECT X*X+Y*Y+Z*Z AS d, key FROM source) GROUP BY key;`
One destination row per distinct key of the source table; the destination
table is rebuilt from scratch (`create_table` drops it first), so the result
is exactly this list. -/
def create_summary_table (source : List Sample) : List SummaryRow :=
  ((source.map Sample.key).dedup).map (mkSummary source)

/-! ## Spec-side notions used to state the claims -/

/-- `mean(xs)` as the specification uses it: sum over count. -/
def mean (xs : List ℚ) : ℚ := xs.sum / xs.length

/-! ## Normalizer (`make_norm_select`, `create_norm_table`,
`make_normed_summaries`) -/

/-- One entry of the list `make_norm_select` returns: the SQL fragment
`"(name-sub)/den AS t_name"`, embedded as its data.  `sub` is the column
minimum over `train_summary` and `den` the column maximum minus minimum. -/
structure NormCol where
  name : String
  sub : ℚ
  den : ℚ
deriving DecidableEq

/-- SQLite division: dividing by zero yields NULL, not an error. -/
def sqlDiv (x y : ℚ) : Option ℚ := if y = 0 then none else some (x / y)

/-- `make_norm_select` from the source.  It reads the columns named in
`keys` from `train_summary` (`SELECT keys FROM train_summary`), takes the
column-wise minimum `mmin` and maximum `mmax` with numpy, and returns the
normalisation fragments for `zip(keys, mmin, mmax - mmin)[:-1]` — note the
`[:-1]`, which drops the fragment of the LAST key.  On an empty
`train_summary` the fetched matrix is empty and `np.min` raises
(`zero-size array to reduction operation`), embedded as `none`. -/
def make_norm_select (train_summary : List SummaryRow) (keys : List String) :
    Option (List NormCol) :=
  match train_summary with
  | [] => none
  | _ :: _ =>
    some ((keys.map fun c =>
      let vals := train_summary.map fun r => getStat r c
      { name := c, sub := aggMIN vals, den := aggMAX vals - aggMIN vals }).dropLast)

/-- One row of a normalised destination table: the `t_`-prefixed columns
(with their values, NULL possible from SQL division by zero) and the copied
group key. -/
structure NormRow where
  vals : List (String × Option ℚ)
  key : ℤ
deriving DecidableEq

/-- Evaluation of one normalisation fragment `(c-sub)/den` on a summary
row, with SQLite division semantics. -/
def evalNorm (c : NormCol) (r : SummaryRow) : Option ℚ :=
  sqlDiv (getStat r c.name - c.sub) c.den

/-- `create_norm_table` from the source:
`INSERT INTO dest(t_cols, key) SELECT norm_exprs, key FROM source_table` —
one destination row per source row, each normalisation fragment evaluated
on that row, the group key copied unchanged.  The destination table is
rebuilt first, so the result is exactly this list. -/
def create_norm_table (source : List SummaryRow) (columns : List NormCol) :
    List NormRow :=
  source.map fun r =>
    { vals := columns.map fun c => ("t_" ++ c.name, evalNorm c r), key := r.key }

/-- `make_normed_summaries` from the source: builds the normalisation
fragments from `train_summary` with `keys = [c[0] for c in summary_columns]`,
zips them back with `summary_columns` (the zip truncates to the shorter
list), and creates both normalised tables with the same fragments. -/
def make_normed_summaries (train_summary test_summary : List SummaryRow) :
    Option (List NormRow × List NormRow) :=
  match make_norm_select train_summary (summary_columns.map fun c => c.1) with
  | none => none
  | some norm =>
    let norm_columns := (summary_columns.zip norm).map fun i => i.2
    some (create_norm_table train_summary norm_columns,
          create_norm_table test_summary norm_columns)

/-- Spec-side: `columnMin[c]`, the minimum of statistic column `c` over the
rows of the training summary table. -/
def columnMin (train_summary : List SummaryRow) (c : String) : ℚ :=
  aggMIN (train_summary.map fun r => getStat r c)

/-- Spec-side: `columnMax[c]`, the maximum of statistic column `c` over the
rows of the training summary table. -/
def columnMax (train_summary : List SummaryRow) (c : String) : ℚ :=
  aggMAX (train_summary.map fun r => getStat r c)

/-- The statistic columns that actually survive the normaliser's
`[:-1]`: all of `summary_columns` except the last (`variance`). -/
def normKeys : List String := ["range", "min", "max", "avg"]

/-- Spec-side: the destination row the normaliser should produce for source
row `r` — for each listed column `c` the value
`(c − columnMin[c]) / (columnMax[c] − columnMin[c])` under a `t_` prefix
(bounds taken from `train_summary` only), the group key kept. -/
def specNormRow (train_summary : List SummaryRow) (cols : List String)
    (r : SummaryRow) : NormRow :=
  { vals := cols.map fun c =>
      ("t_" ++ c,
       sqlDiv (getStat r c - columnMin train_summary c)
         (columnMax train_summary c - columnMin train_summary c)),
    key := r.key }

/-! ## Bulk Loader (`insert_csv_table`)

A CSV file is embedded as its list of records, each record a list of field
strings (what `csv.reader` yields).  Python's `float()` on the kind of
finite decimal literals the pipeline's data files contain is embedded as an
exact decimal parser: optional sign, digits with an optional fractional
part, and an optional decimal exponent; a string outside this grammar
(e.g. a word) fails, as `float()` raises `ValueError` on it. -/

/-- Splits a character list at the first character satisfying `p`:
returns the prefix before it and, when found, the remainder after it. -/
def splitOnChar (p : Char → Bool) : List Char → List Char × Option (List Char)
  | [] => ([], none)
  | c :: rest =>
    if p c then ([], some rest)
    else
      let s := splitOnChar p rest
      (c :: s.1, s.2)

/-- The value of one decimal digit character (0 for anything else; the
callers only apply it behind an all-digits guard). -/
def digitVal (c : Char) : ℕ :=
  if c == '1' then 1 else if c == '2' then 2 else if c == '3' then 3 else
  if c == '4' then 4 else if c == '5' then 5 else if c == '6' then 6 else
  if c == '7' then 7 else if c == '8' then 8 else if c == '9' then 9 else 0

/-- The natural number denoted by a list of decimal digit characters. -/
def digitsToNat (cs : List Char) : ℕ :=
  cs.foldl (fun a c => a * 10 + digitVal c) 0

/-- Parses the mantissa part `digits[.digits]` (either side of the dot may
be empty, but not both, and a second dot or any non-digit fails). -/
def parseMantissa (cs : List Char) : Option ℚ :=
  let s := splitOnChar (fun c => c == '.') cs
  let ip := s.1
  let fp := (s.2).getD []
  if (ip ++ fp).isEmpty then none
  else if ip.all Char.isDigit && fp.all Char.isDigit then
    some ((digitsToNat ip : ℚ) + (digitsToNat fp : ℚ) / (10 : ℚ) ^ fp.length)
  else none

/-- Parses an optionally signed run of decimal digits as an integer
(exponent part). -/
def parseSignedInt : List Char → Option ℤ
  | [] => none
  | '+' :: rest =>
    if rest.isEmpty || !rest.all Char.isDigit then none
    else some (digitsToNat rest : ℤ)
  | '-' :: rest =>
    if rest.isEmpty || !rest.all Char.isDigit then none
    else some (-(digitsToNat rest : ℤ))
  | cs =>
    if !cs.all Char.isDigit then none else some (digitsToNat cs : ℤ)

/-- Parses an unsigned float literal `mantissa[(e|E)exponent]`. -/
def parseUnsigned (cs : List Char) : Option ℚ :=
  let s := splitOnChar (fun c => c == 'e' || c == 'E') cs
  match s.2 with
  | none => parseMantissa s.1
  | some ecs =>
    match parseMantissa s.1, parseSignedInt ecs with
    | some m, some e => some (m * (10 : ℚ) ^ e)
    | _, _ => none

/-- Python's `float(s)` on a decimal literal: exact value on success,
`none` for the `ValueError` on anything outside the grammar. -/
def parseFloat (s : String) : Option ℚ :=
  match s.toList with
  | [] => none
  | '+' :: cs => parseUnsigned cs
  | '-' :: cs => (parseUnsigned cs).map Neg.neg
  | cs => parseUnsigned cs

/-- `[float(i) for i in row]`: every field of the record coerced to a
number; the first failing field raises, failing the whole row. -/
def parseRow : List String → Option (List ℚ)
  | [] => some []
  | f :: fs =>
    match parseFloat f, parseRow fs with
    | some q, some qs => some (q :: qs)
    | _, _ => none

/-- The loader's accumulation loop over the data rows (the rows after the
header): every row parsed in order, the first failing row raising
`ValueError` and failing the whole load. -/
def parseRows : List (List String) → Option (List (List ℚ))
  | [] => some []
  | r :: rs =>
    match parseRow r, parseRows rs with
    | some q, some qs => some (q :: qs)
    | _, _ => none

/-- The errors `insert_csv_table` can raise while reading the CSV:
`dataFormat` is the `ValueError` from `float()` on a non-numeric field (the
spec's `DataFormatError`); `emptyFile` is the `TypeError` from
`executemany(sql, None)` when the file had no rows at all, so the
accumulator `floatdata` was never initialised past `None`. -/
inductive LoadError where
  | emptyFile
  | dataFormat
deriving DecidableEq

/-- The observable outcome of `insert_csv_table`: the committed contents of
the destination table after the call (the table is always rebuilt empty
first by `create_table`), the exception propagated if any, and the Python
return value of the function (an `Option ℕ` so that a returned row count
would be `some n`; the source function has no return statement, so it
returns `None`). -/
structure LoadOutcome where
  table : List (List ℚ)
  error : Option LoadError
  ret : Option ℕ
deriving DecidableEq

/-- `insert_csv_table` from the source.  `create_table` has already rebuilt
the destination empty.  The loop discards the first record unconditionally
(it only flips `floatdata` from `None` to `[]` — the header's contents are
never parsed or validated), parses every later record with `float()`, and
only then batch-inserts with `executemany`; a parse failure raises before
any insert, and a file with no records leaves `floatdata = None`, making
`executemany` raise `TypeError`.  The declared `columns` only name the
insert's target columns and never influence parsing, so they are not
modelled. -/
def insert_csv_table (csvdata : List (List String)) : LoadOutcome :=
  match csvdata with
  | [] => { table := [], error := some LoadError.emptyFile, ret := none }
  | _ :: rows =>
    match parseRows rows with
    | none => { table := [], error := some LoadError.dataFormat, ret := none }
    | some floatdata => { table := floatdata, error := none, ret := none }

/-! ## Characterisation of the normaliser -/

/-- On a non-empty training summary table, `make_normed_summaries` succeeds
and produces, for both destinations, exactly one row per source row,
normalised columnwise by the training-set bounds — but only for the columns
of `normKeys`: the `[:-1]` in `make_norm_select` drops `variance`. -/
lemma make_normed_summaries_eq (train test : List SummaryRow)
    (h : train ≠ []) :
    make_normed_summaries train test =
      some (train.map (specNormRow train normKeys),
            test.map (specNormRow train normKeys)) := by
  cases train with
  | nil => exact absurd rfl h
  | cons a l => rfl

/-! ## Support lemmas for the loader -/

lemma parseRow_forall₂ :
    ∀ {fs : List String} {qs : List ℚ}, parseRow fs = some qs →
      List.Forall₂ (fun f q => parseFloat f = some q) fs qs := by
  intro fs
  induction fs with
  | nil =>
    intro qs h
    obtain rfl : ([] : List ℚ) = qs := Option.some.inj h
    exact List.Forall₂.nil
  | cons f fs ih =>
    intro qs h
    rw [parseRow] at h
    cases hf : parseFloat f with
    | none => rw [hf] at h; cases h
    | some q =>
      rw [hf] at h
      cases hr : parseRow fs with
      | none => rw [hr] at h; cases h
      | some qs2 =>
        rw [hr] at h
        obtain rfl : q :: qs2 = qs := Option.some.inj h
        exact List.Forall₂.cons hf (ih hr)

lemma parseRows_forall₂ :
    ∀ {rs : List (List String)} {qss : List (List ℚ)},
      parseRows rs = some qss →
      List.Forall₂ (fun r q => parseRow r = some q) rs qss := by
  intro rs
  induction rs with
  | nil =>
    intro qss h
    obtain rfl : ([] : List (List ℚ)) = qss := Option.some.inj h
    exact List.Forall₂.nil
  | cons r rs ih =>
    intro qss h
    rw [parseRows] at h
    cases hr : parseRow r with
    | none => rw [hr] at h; cases h
    | some q =>
      rw [hr] at h
      cases hrs : parseRows rs with
      | none => rw [hrs] at h; cases h
      | some qs2 =>
        rw [hrs] at h
        obtain rfl : q :: qs2 = qss := Option.some.inj h
        exact List.Forall₂.cons hr (ih hrs)

/-! ## Claims about the Bulk Loader -/

/-- C5: for every CSV input consisting of a header record and `N` parseable
data records, the bulk load commits exactly `N` rows, field `i` of data
record `j` parsed as a number into column `i` of row `j`; the header record
is discarded unconditionally — it is an arbitrary record, never parsed or
validated. -/
theorem C5_load_rows (header : List String) (rows : List (List String))
    (floatrows : List (List ℚ)) (hp : parseRows rows = some floatrows) :
    insert_csv_table (header :: rows) =
      { table := floatrows, error := none, ret := none } ∧
    floatrows.length = rows.length ∧
    List.Forall₂ (List.Forall₂ fun f q => parseFloat f = some q)
      rows floatrows := by
  refine ⟨?_, ?_, ?_⟩
  · rw [insert_csv_table, hp]
  · exact (List.Forall₂.length_eq (parseRows_forall₂ hp)).symm
  · exact (parseRows_forall₂ hp).imp fun _ _ hrq => parseRow_forall₂ hrq

/-- Witness for C5: a two-record load behind a non-numeric header. -/
theorem C5_witness :
    parseRows [["1", "2.5"], ["-3", "4e2"]] =
      some [[1, 5 / 2], [-3, 400]] ∧
    (insert_csv_table (["colA", "colB"] :: [["1", "2.5"], ["-3", "4e2"]]) =
        { table := [[1, 5 / 2], [-3, 400]], error := none, ret := none } ∧
      ([[1, 5 / 2], [-3, 400]] : List (List ℚ)).length =
        [["1", "2.5"], ["-3", "4e2"]].length ∧
      List.Forall₂ (List.Forall₂ fun f q => parseFloat f = some q)
        [["1", "2.5"], ["-3", "4e2"]] [[1, 5 / 2], [-3, 400]]) :=
  ⟨by norm_num +decide [parseRows, parseRow, parseFloat, parseUnsigned,
      parseMantissa, parseSignedInt, splitOnChar, digitsToNat, digitVal],
   C5_load_rows ["colA", "colB"] _ _
     (by norm_num +decide [parseRows, parseRow, parseFloat, parseUnsigned,
       parseMantissa, parseSignedInt, splitOnChar, digitsToNat, digitVal])⟩

/-- C6: a data record with a non-numeric field fails the whole load with
the `float()` parse error (the spec's `DataFormatError`); nothing is
committed — the destination is left in the rebuilt-but-empty state. -/
theorem C6_parse_failure (header : List String) (rows : List (List String))
    (hp : parseRows rows = none) :
    insert_csv_table (header :: rows) =
      { table := [], error := some LoadError.dataFormat, ret := none } := by
  rw [insert_csv_table, hp]

/-- Witness for C6: a load whose second data record holds a word. -/
theorem C6_witness :
    parseRows [["1"], ["abc"]] = none ∧
    insert_csv_table (["h"] :: [["1"], ["abc"]]) =
      { table := [], error := some LoadError.dataFormat, ret := none } :=
  ⟨by decide, C6_parse_failure ["h"] _ (by decide)⟩

/-- C8 counterexample: a successful two-row load returns `None` (the source
function has no return statement), not the row count `2` the claim
promises. -/
theorem C8_counterexample :
    (insert_csv_table [["h"], ["1"], ["2"]]).error = none ∧
    (insert_csv_table [["h"], ["1"], ["2"]]).table.length = 2 ∧
    (insert_csv_table [["h"], ["1"], ["2"]]).ret = none ∧
    (insert_csv_table [["h"], ["1"], ["2"]]).ret ≠ some 2 := by decide

/-- C8 (amended): `insert_csv_table` returns no value at all — on every
input its Python return value is `None`, so the caller never receives the
number of rows loaded. -/
theorem C8_returns_none (csvdata : List (List String)) :
    (insert_csv_table csvdata).ret = none := by
  cases csvdata with
  | nil => rfl
  | cons header rows =>
    cases hp : parseRows rows <;> simp [insert_csv_table, hp]

/-- C10: loading a file with no records at all raises (the accumulator is
never initialised past `None`, so `executemany` receives `None`), while a
header-only file loads successfully and commits zero rows. -/
theorem C10_empty_file :
    insert_csv_table [] =
      { table := [], error := some LoadError.emptyFile, ret := none } ∧
    ∀ header : List String,
      insert_csv_table [header] = { table := [], error := none, ret := none } :=
  ⟨rfl, fun _ => rfl⟩

/-! ## Claims about the Summary Aggregator -/

/-- C2: for every source table and every group key present in it, the
aggregator writes exactly one destination row for that key, and its
statistics over the group's magnitudes `d = X*X+Y*Y+Z*Z` are
`min = min(d)` (a member of the group that bounds it from below),
`max = max(d)`, `range = max − min`, `avg = mean(d)`, and
`variance = mean(d²) − mean(d)²`. -/
theorem C2_summary_stats (source : List Sample) (k : ℤ)
    (hk : k ∈ source.map Sample.key) :
    ∃! r : SummaryRow, r ∈ create_summary_table source ∧ r.key = k ∧
      r.min ∈ groupMagnitudes source k ∧
      (∀ x ∈ groupMagnitudes source k, r.min ≤ x) ∧
      r.max ∈ groupMagnitudes source k ∧
      (∀ x ∈ groupMagnitudes source k, x ≤ r.max) ∧
      r.range = r.max - r.min ∧
      r.avg = mean (groupMagnitudes source k) ∧
      r.variance = mean ((groupMagnitudes source k).map fun x => x * x) -
        mean (groupMagnitudes source k) * mean (groupMagnitudes source k) := by
  obtain ⟨s, hs, hsk⟩ := List.mem_map.mp hk
  have hne : groupMagnitudes source k ≠ [] := by
    have hsmem : s ∈ source.filter fun t => t.key == k :=
      List.mem_filter.mpr ⟨hs, by simp [hsk]⟩
    exact List.ne_nil_of_mem (List.mem_map_of_mem d hsmem)
  refine ⟨mkSummary source k,
    ⟨List.mem_map_of_mem (mkSummary source) (List.mem_dedup.mpr hk),
     rfl, aggMIN_mem hne, fun x hx => aggMIN_le x hx,
     aggMAX_mem hne, fun x hx => le_aggMAX x hx, rfl, rfl, rfl⟩, ?_⟩
  rintro r' ⟨hmem, hkey, -⟩
  obtain ⟨k2, hk2, rfl⟩ := List.mem_map.mp hmem
  have hkk : k2 = k := hkey
  rw [hkk]

/-- Witness for C2: a two-key source, checked at key 1. -/
theorem C2_witness :
    (1 : ℤ) ∈ ([⟨1, 0, 0, 1⟩, ⟨0, 0, 1, 2⟩] : List Sample).map Sample.key ∧
    (∃! r : SummaryRow,
      r ∈ create_summary_table [⟨1, 0, 0, 1⟩, ⟨0, 0, 1, 2⟩] ∧ r.key = 1 ∧
      r.min ∈ groupMagnitudes [⟨1, 0, 0, 1⟩, ⟨0, 0, 1, 2⟩] 1 ∧
      (∀ x ∈ groupMagnitudes [⟨1, 0, 0, 1⟩, ⟨0, 0, 1, 2⟩] 1, r.min ≤ x) ∧
      r.max ∈ groupMagnitudes [⟨1, 0, 0, 1⟩, ⟨0, 0, 1, 2⟩] 1 ∧
      (∀ x ∈ groupMagnitudes [⟨1, 0, 0, 1⟩, ⟨0, 0, 1, 2⟩] 1, x ≤ r.max) ∧
      r.range = r.max - r.min ∧
      r.avg = mean (groupMagnitudes [⟨1, 0, 0, 1⟩, ⟨0, 0, 1, 2⟩] 1) ∧
      r.variance =
        mean ((groupMagnitudes [⟨1, 0, 0, 1⟩, ⟨0, 0, 1, 2⟩] 1).map
          fun x => x * x) -
        mean (groupMagnitudes [⟨1, 0, 0, 1⟩, ⟨0, 0, 1, 2⟩] 1) *
        mean (groupMagnitudes [⟨1, 0, 0, 1⟩, ⟨0, 0, 1, 2⟩] 1)) :=
  ⟨by decide, C2_summary_stats [⟨1, 0, 0, 1⟩, ⟨0, 0, 1, 2⟩] 1 (by decide)⟩

/-- C4: after an aggregation run the destination holds exactly one row per
distinct group key of the source — the projected key column has no
duplicates, and a key appears in it iff it appears in the source. -/
theorem C4_one_row_per_key (source : List Sample) :
    ((create_summary_table source).map SummaryRow.key).Nodup ∧
    ∀ k : ℤ, k ∈ (create_summary_table source).map SummaryRow.key ↔
      k ∈ source.map Sample.key := by
  have hmap : (create_summary_table source).map SummaryRow.key =
      (source.map Sample.key).dedup := by
    rw [create_summary_table, List.map_map]
    have hcomp : SummaryRow.key ∘ mkSummary source = id := rfl
    rw [hcomp, List.map_id]
  exact ⟨hmap ▸ List.nodup_dedup _, fun k => by rw [hmap, List.mem_dedup]⟩

/-! ## Claims about the Normalizer -/

/-- C1 counterexample: on a concrete pipeline state the normalised tables
hold only the four columns `t_range, t_min, t_max, t_avg` — there is no
`t_variance` column, because `make_norm_select` drops the last fragment
with its `[:-1]`.  This refutes the claim that every one of the five
statistics, variance included, is written to the destination. -/
theorem C1_counterexample :
    (make_normed_summaries [⟨0, 0, 0, 0, 0, 1⟩, ⟨1, 1, 1, 1, 1, 2⟩]
        [⟨0, 0, 0, 0, 0, 3⟩]).map
        (fun p => (p.1.map fun row => row.vals.map Prod.fst,
                   p.2.map fun row => row.vals.map Prod.fst)) =
      some ([["t_range", "t_min", "t_max", "t_avg"],
             ["t_range", "t_min", "t_max", "t_avg"]],
            [["t_range", "t_min", "t_max", "t_avg"]]) := by decide

/-- C1 (amended): on a non-empty training summary, each of the FIRST FOUR
statistic columns (range, min, max, avg — `variance` is dropped by the
`[:-1]` in `make_norm_select`) is transformed by
`(c − columnMin[c]) / (columnMax[c] − columnMin[c])` and written as a
`t_`-prefixed column, and every destination row keeps its original group
key: the two destinations are exactly the row-wise image of the source
summaries under `specNormRow`. -/
theorem C1_normalised_tables (train test : List SummaryRow) (h : train ≠ []) :
    make_normed_summaries train test =
      some (train.map (specNormRow train normKeys),
            test.map (specNormRow train normKeys)) :=
  make_normed_summaries_eq train test h

/-- Witness for C1: a one-row training summary and a one-row test summary. -/
theorem C1_witness :
    ([(⟨0, 0, 0, 0, 0, 1⟩ : SummaryRow)] ≠ []) ∧
    make_normed_summaries [⟨0, 0, 0, 0, 0, 1⟩] [⟨2, 2, 2, 2, 2, 7⟩] =
      some ([(⟨0, 0, 0, 0, 0, 1⟩ : SummaryRow)].map
              (specNormRow [⟨0, 0, 0, 0, 0, 1⟩] normKeys),
            [(⟨2, 2, 2, 2, 2, 7⟩ : SummaryRow)].map
              (specNormRow [⟨0, 0, 0, 0, 0, 1⟩] normKeys)) :=
  ⟨by decide, C1_normalised_tables _ _ (by decide)⟩

/-- C3: the min-max bounds are computed from the training summary table
alone, and the identical per-column affine transform — coefficients
`columnMin train c` and `columnMax train c − columnMin train c`, functions
of `train` only — is applied to both destinations: for any two test tables
the same `specNormRow train normKeys` transform is used, so test data never
influences the bounds. -/
theorem C3_train_bounds_only (train test1 test2 : List SummaryRow)
    (h : train ≠ []) :
    make_normed_summaries train test1 =
      some (train.map (specNormRow train normKeys),
            test1.map (specNormRow train normKeys)) ∧
    make_normed_summaries train test2 =
      some (train.map (specNormRow train normKeys),
            test2.map (specNormRow train normKeys)) :=
  ⟨make_normed_summaries_eq train test1 h,
   make_normed_summaries_eq train test2 h⟩

/-- Witness for C3: one training row against two different test tables. -/
theorem C3_witness :
    ([(⟨0, 0, 0, 0, 0, 1⟩ : SummaryRow)] ≠ []) ∧
    (make_normed_summaries [⟨0, 0, 0, 0, 0, 1⟩] [] =
      some ([(⟨0, 0, 0, 0, 0, 1⟩ : SummaryRow)].map
              (specNormRow [⟨0, 0, 0, 0, 0, 1⟩] normKeys),
            ([] : List SummaryRow).map
              (specNormRow [⟨0, 0, 0, 0, 0, 1⟩] normKeys)) ∧
    make_normed_summaries [⟨0, 0, 0, 0, 0, 1⟩] [⟨3, 3, 3, 3, 3, 4⟩] =
      some ([(⟨0, 0, 0, 0, 0, 1⟩ : SummaryRow)].map
              (specNormRow [⟨0, 0, 0, 0, 0, 1⟩] normKeys),
            [(⟨3, 3, 3, 3, 3, 4⟩ : SummaryRow)].map
              (specNormRow [⟨0, 0, 0, 0, 0, 1⟩] normKeys))) :=
  ⟨by decide, C3_train_bounds_only _ _ _ (by decide)⟩

/-- C7 counterexample: normalising from an EMPTY training summary table
does not produce empty destinations — `np.min` on the empty fetched matrix
raises (`zero-size array to reduction operation minimum`), so
`make_normed_summaries` fails instead of yielding empty tables. -/
theorem C7_counterexample :
    make_normed_summaries [] [] = none ∧
    make_normed_summaries [] [] ≠ some ([], []) :=
  ⟨rfl, by decide⟩

/-- C7 (amended): the bulk-load stage on a record-less source (header-only
file) and the aggregation stage on an empty raw table both yield an empty
destination and no error; the normalisation stage, however, raises on an
empty `train_summary` instead of producing empty destinations. -/
theorem C7_empty_sources :
    (∀ header : List String, insert_csv_table [header] =
      { table := [], error := none, ret := none }) ∧
    create_summary_table ([] : List Sample) = [] ∧
    (∀ ts : List SummaryRow, make_normed_summaries [] ts = none) :=
  ⟨fun _ => rfl, rfl, fun _ => rfl⟩

/-- C9 counterexample: with a single training summary row every column's
bounds collapse (`columnMax = columnMin`), and the run neither fails fast
nor writes `0`: it succeeds, and SQLite's division by zero fills every
normalised column with NULL (`none`) — refuting the claim that one of the
two documented policies is followed. -/
theorem C9_counterexample :
    make_normed_summaries [⟨0, 0, 0, 0, 0, 1⟩] [⟨5, 5, 5, 5, 5, 9⟩] =
      some ([⟨[("t_range", none), ("t_min", none), ("t_max", none),
                ("t_avg", none)], 1⟩],
            [⟨[("t_range", none), ("t_min", none), ("t_max", none),
                ("t_avg", none)], 9⟩]) := by
  norm_num +decide [make_normed_summaries, make_norm_select, summary_columns,
    create_norm_table, evalNorm, sqlDiv, getStat, aggMIN, aggMAX]

/-- C9 (amended): when the training bounds of a surviving statistic column
`c` collapse (`columnMax[c] = columnMin[c]`), normalisation neither fails
with a `DegenerateRangeError` nor defines the result as 0: the SQL
division by zero makes the `t_c` value NULL (`none`) in every row of both
destinations. -/
theorem C9_degenerate_null (train test : List SummaryRow) (h : train ≠ [])
    (c : String) (hc : c ∈ normKeys)
    (hdeg : columnMax train c = columnMin train c) :
    ∀ tn tt, make_normed_summaries train test = some (tn, tt) →
      ∀ row ∈ tn ++ tt, ("t_" ++ c, (none : Option ℚ)) ∈ row.vals := by
  intro tn tt heq row hrow
  rw [make_normed_summaries_eq train test h] at heq
  have hpair := Option.some.inj heq
  have htn : tn = train.map (specNormRow train normKeys) :=
    (congrArg Prod.fst hpair).symm
  have htt : tt = test.map (specNormRow train normKeys) :=
    (congrArg Prod.snd hpair).symm
  subst htn htt
  have hden : columnMax train c - columnMin train c = 0 :=
    sub_eq_zero_of_eq hdeg
  have hval : ∀ r : SummaryRow,
      ("t_" ++ c, (none : Option ℚ)) ∈ (specNormRow train normKeys r).vals := by
    intro r
    refine List.mem_map.mpr ⟨c, hc, ?_⟩
    rw [hden]
    simp [sqlDiv]
  rcases List.mem_append.mp hrow with hm | hm <;>
    obtain ⟨r, hr, rfl⟩ := List.mem_map.mp hm <;>
    exact hval r

/-- Witness for C9: a degenerate one-row training summary, column `range`. -/
theorem C9_witness :
    ([(⟨0, 0, 0, 0, 0, 1⟩ : SummaryRow)] ≠ []) ∧
    "range" ∈ normKeys ∧
    columnMax [(⟨0, 0, 0, 0, 0, 1⟩ : SummaryRow)] "range" =
      columnMin [(⟨0, 0, 0, 0, 0, 1⟩ : SummaryRow)] "range" ∧
    (∀ tn tt,
      make_normed_summaries [(⟨0, 0, 0, 0, 0, 1⟩ : SummaryRow)]
        [(⟨5, 5, 5, 5, 5, 9⟩ : SummaryRow)] = some (tn, tt) →
      ∀ row ∈ tn ++ tt, ("t_" ++ "range", (none : Option ℚ)) ∈ row.vals) :=
  ⟨by decide, by decide,
   by norm_num +decide [columnMin, columnMax, getStat, aggMIN, aggMAX],
   C9_degenerate_null _ _ (by decide) "range" (by decide)
     (by norm_num +decide [columnMin, columnMax, getStat, aggMIN, aggMAX])⟩

end Biometric
